import Mathlib

/-!
Shallow embedding of rivets-core (src/lib.rs): the PDB symbol cache, the
address-resolution rule, the descriptor-injection loop of the payload entry
point, and the mod-library extraction loop.  External effects (file opening,
PDB parsing, GetModuleHandleA, Library::new, the rivets_finalize entry point)
are modelled by passing their outcomes as inputs; all errors are modelled by
their message strings, matching the fact that the outer boundary surfaces
only e.to_string().  Machine integers (u32 rvas, u64 addresses) are Nat,
with an explicit mod 2 to the 64 at the one place u64 addition occurs.
-/

/-- A public symbol record as parsed from the PDB global symbol stream
(pdb SymbolData Public): whether the record denotes a function, its mangled
name, and its section-relative offset.  The offset is abstracted to a Nat key
into the address map. -/
structure PublicSymbol where
  function : Bool
  name : String
  offset : Nat
deriving DecidableEq

/-- The result of symbol.parse for one record: a public record, or any other
kind of symbol record (the catch-all arm of the match in PDBCache new). -/
inductive SymbolData where
  | publicSymbol (data : PublicSymbol)
  | other
deriving DecidableEq

/-- The address map of the PDB file, abstracted as a function from
section-relative offsets to optional rvas: offset.to_rva(address_map)
succeeds exactly when this returns some. -/
def AddressMap : Type := Nat → Option Nat

/-- The symbol_addresses HashMap of PDBCache, observed only through insert
and get in the source, modelled as a function from names to optional rvas. -/
def SymbolMap : Type := String → Option Nat

/-- HashMap insert: the new binding overwrites any earlier binding of the
same key. -/
def insertSym (m : SymbolMap) (k : String) (v : Nat) : SymbolMap :=
  fun k2 => if k2 = k then some v else m k2

/-- The empty HashMap. -/
def emptySymbolMap : SymbolMap := fun _ => none

/-- One iteration of the for_each over the global symbol stream in
PDBCache new: a public record with the function flag inserts
offset.to_rva(address_map).unwrap_or_default() (0 when the offset cannot be
converted); a parse error aborts; every other record is ignored. -/
def symbolStep (addressMap : AddressMap) (m : SymbolMap)
    (record : Except String SymbolData) : Except String SymbolMap :=
  match record with
  | .ok (.publicSymbol data) =>
      if data.function then
        .ok (insertSym m data.name ((addressMap data.offset).getD 0))
      else .ok m
  | .error e => .error e
  | .ok .other => .ok m

/-- The whole fallible for_each over the global symbol stream: fail-fast on
the first parse error, otherwise thread the map through symbolStep. -/
def buildSymbolMap (addressMap : AddressMap) :
    List (Except String SymbolData) → SymbolMap → Except String SymbolMap
  | [], m => .ok m
  | r :: rs, m =>
      match symbolStep addressMap m r with
      | .error e => .error e
      | .ok m2 => buildSymbolMap addressMap rs m2

/-- What PDBCache new reads out of a successfully opened PDB file: the
parse results of the global symbol records, in stream order, and the
address map. -/
structure PdbInput where
  records : List (Except String SymbolData)
  addressMap : AddressMap

/-- PDBCache: the immutable name-to-rva table plus the module base address
(a u64, here a Nat). -/
structure PDBCache where
  symbol_addresses : SymbolMap
  base_address : Nat

/-- PDBCache new: File::open plus PDB::open are modelled by openResult,
GetModuleHandleA by baseResult (in source order: the file is opened first,
then the base address is queried, then the symbol stream is folded);
each failure aborts construction with that error. -/
def PDBCache.new (openResult : Except String PdbInput)
    (baseResult : Except String Nat) : Except String PDBCache :=
  match openResult with
  | .error e => .error e
  | .ok pdb =>
      match baseResult with
      | .error e => .error e
      | .ok base =>
          match buildSymbolMap pdb.addressMap pdb.records emptySymbolMap with
          | .error e => .error e
          | .ok m => .ok { symbol_addresses := m, base_address := base }

/-- PDBCache get_function_address: look the name up in the table and return
base_address + rva, as u64 addition (hence the mod 2 to the 64); absent
names give none. -/
def PDBCache.get_function_address (c : PDBCache) (name : String) : Option Nat :=
  (c.symbol_addresses name).map (fun x => (c.base_address + x) % 2 ^ 64)

/-- A synthetic symbol table holding exactly the binding Foo to 0x1000. -/
def fooTable : SymbolMap := fun n => if n = "Foo" then some 0x1000 else none

/-- A synthetic resolver: the fooTable with module base 0x140000000. -/
def fooCache : PDBCache :=
  { symbol_addresses := fooTable, base_address := 0x140000000 }

/-- The bail message of PDBCache inject when get_function_address returns
none (the format string with the mangled name interpolated at the end). -/
def missingAddressMsg (name : String) : String :=
  "Failed to find address for the following mangled function inside the PDB: "
    ++ name

/-- The cross-boundary hook descriptor (rivets RivetsHook) as lib.rs uses
it: a mangled target name and an install callback taking the absolute
address and returning an RResult, modelled as Except with the error message
string.  The crate defining the type is outside src; its two fields are
taken from their uses at lines 93 and 98. -/
structure RivetsHook where
  mangled_name : String
  hook : Nat → Except String Unit

/-- PDBCache inject: resolve the mangled name; bail with missingAddressMsg
when absent; otherwise invoke the install callback and return its result
converted into the ambient error type unchanged. -/
def PDBCache.inject (c : PDBCache) (h : RivetsHook) : Except String Unit :=
  match c.get_function_address h.mangled_name with
  | none => .error (missingAddressMsg h.mangled_name)
  | some address => h.hook address

/-- The inner for-loop of main over one mod's descriptor sequence:
inject each hook in sequence order, stopping at the first error. -/
def injectAll (c : PDBCache) : List RivetsHook → Except String Unit
  | [] => .ok ()
  | h :: rest =>
      match c.inject h with
      | .error e => .error e
      | .ok _ => injectAll c rest

/-- The anyhow context message attached when looking up the
rivets_finalize symbol fails for a mod (this is what e.to_string() then
shows). -/
def missingEntryPointMsg (modName : String) : String :=
  "Failed to get rivets_finalize ABI function for mod " ++ modName
    ++ ". Did you forget to call rivets::finalize!()?"

/-- One plugin library as main observes it: the outcome of Library::new on
its extracted path, and the rivets_finalize entry point, present (returning
its descriptor sequence) or absent. -/
structure PluginLib where
  openResult : Except String Unit
  finalize : Option (List RivetsHook)

/-- Observable events of one injection run: a shared library is loaded
(Library::new succeeds), an install callback is invoked with a resolved
address, a shared library is unloaded (the libloading Library value is
dropped when its loop iteration's scope exits). -/
inductive RunEvent where
  | load (plugin : String)
  | install (plugin : String) (symbol : String) (address : Nat)
  | unload (plugin : String)
deriving DecidableEq

/-- The inner descriptor loop, instrumented with the install events it
fires: exactly the invocations of hook callbacks, in order.  A callback is
invoked whenever its name resolves, even if it then fails. -/
def runHooks (c : PDBCache) (plugin : String) :
    List RivetsHook → List RunEvent × Except String Unit
  | [] => ([], .ok ())
  | h :: rest =>
      match c.get_function_address h.mangled_name with
      | none => ([], .error (missingAddressMsg h.mangled_name))
      | some address =>
          match h.hook address with
          | .error e => ([.install plugin h.mangled_name address], .error e)
          | .ok _ =>
              let r := runHooks c plugin rest
              (.install plugin h.mangled_name address :: r.1, r.2)

/-- The outer for-loop of main over the extracted mod libraries,
instrumented with load, install and unload events.  After a successful
Library::new, the Library value is dropped when the iteration's scope
exits, on the success path and on every early-return path alike, so a load
event is always eventually followed by its unload event. -/
def runMods (c : PDBCache) :
    List (String × PluginLib) → List RunEvent × Except String Unit
  | [] => ([], .ok ())
  | (modName, lib) :: rest =>
      match lib.openResult with
      | .error e => ([], .error e)
      | .ok _ =>
          match lib.finalize with
          | none =>
              ([.load modName, .unload modName],
               .error (missingEntryPointMsg modName))
          | some hooks =>
              let r := runHooks c modName hooks
              match r.2 with
              | .error e => (.load modName :: r.1 ++ [.unload modName], .error e)
              | .ok _ =>
                  let r2 := runMods c rest
                  (.load modName :: r.1 ++ [.unload modName] ++ r2.1, r2.2)

/-- The unsafe main of lib.rs: construct the PDBCache (aborting the run on
failure, before any mod is touched), obtain the extracted mod library list
(extract_all_mods_libs, aborting on failure), then run the injection loop.
The pdb path and the behaviour of each extracted library are inputs. -/
def mainModel (openResult : Except String PdbInput)
    (baseResult : Except String Nat)
    (modsLibs : Except String (List (String × PluginLib))) :
    Except String Unit :=
  match PDBCache.new openResult baseResult with
  | .error e => .error e
  | .ok cache =>
      match modsLibs with
      | .error e => .error e
      | .ok mods => (runMods cache mods).2

/-- The symbols whose install callbacks were invoked during a run, in
firing order. -/
def installedSymbols (events : List RunEvent) : List String :=
  events.filterMap fun e =>
    match e with
    | .install _ s _ => some s
    | _ => none

/-- The error type of mod_util get_file as matched by
extract_all_mods_libs: a missing path, a zip error carrying its message, or
any other mod error carrying its message. -/
inductive ModError where
  | pathDoesNotExist (path : String)
  | zipError (msg : String)
  | otherErr (msg : String)
deriving DecidableEq

/-- One active mod as the extraction loop observes it: the outcome of
current_mod.get_file(RIVETS_LIB).  File contents are abstracted to byte
lists. -/
structure ModRecord where
  getFile : Except ModError (List Nat)

/-- The dynamic library suffix on Windows (the build of lib.rs targets
Windows: it uses the Win32 module loader unconditionally). -/
def DYNAMIC_LIBRARY_SUFFIX : String := ".dll"

/-- The per-mod loop of extract_all_mods_libs, after ModList generation and
loading: skip the mod named rivets; look each remaining mod up among the
active mods (the expect on a missing mod is modelled as an error); skip a
mod whose rivets library file is absent (PathDoesNotExist, or the zip
not-found message); abort on any other get_file error; otherwise extract to
writeData/temp/rivets/name plus the library suffix and record the pair.
The create_dir_all and fs::write calls are modelled as succeeding; their
failure would abort the run like any other error and adds no entries. -/
def extract_all_mods_libs (writeData : String)
    (allActiveMods : String → Option ModRecord) :
    List String → Except String (List (String × String))
  | [] => .ok []
  | modName :: rest =>
      if modName = "rivets" then
        extract_all_mods_libs writeData allActiveMods rest
      else
        match allActiveMods modName with
        | none =>
            .error "The list of active mods contains all mods in the load order"
        | some currentMod =>
            match currentMod.getFile with
            | .error (.pathDoesNotExist _) =>
                extract_all_mods_libs writeData allActiveMods rest
            | .error (.zipError e) =>
                if e = "specified file not found in archive" then
                  extract_all_mods_libs writeData allActiveMods rest
                else .error e
            | .error (.otherErr e) => .error e
            | .ok _lib =>
                match extract_all_mods_libs writeData allActiveMods rest with
                | .error e => .error e
                | .ok restResult =>
                    .ok ((modName,
                          writeData ++ "/temp/rivets/" ++ modName
                            ++ DYNAMIC_LIBRARY_SUFFIX) :: restResult)

/-- A synthetic symbol table holding Foo to 0x1000 and Bar to 0x2000. -/
def fooBarTable : SymbolMap := fun n =>
  if n = "Foo" then some 0x1000
  else if n = "Bar" then some 0x2000
  else none

/-- A synthetic resolver over fooBarTable with module base 0x140000000. -/
def fooBarCache : PDBCache :=
  { symbol_addresses := fooBarTable, base_address := 0x140000000 }

/-- A concrete active-mod map: the mods alpha and rivets both carry a
rivets library file; nothing else is active. -/
def c10mods : String → Option ModRecord := fun n =>
  if n = "alpha" then some { getFile := .ok [1] }
  else if n = "rivets" then some { getFile := .ok [2] }
  else none

/-- C1: for every constructed resolver, resolving a name returns
base + rva when the name is present (as long as the u64 addition does not
wrap) and none when it is absent; in particular the synthetic resolver with
table Foo to 0x1000 and base 0x140000000 resolves Foo to 0x140001000. -/
theorem c1_resolve_present_absent :
    (∀ (c : PDBCache) (name : String) (rva : Nat),
        c.symbol_addresses name = some rva →
        c.base_address + rva < 2 ^ 64 →
        c.get_function_address name = some (c.base_address + rva)) ∧
    (∀ (c : PDBCache) (name : String),
        c.symbol_addresses name = none →
        c.get_function_address name = none) ∧
    fooCache.get_function_address "Foo" = some 0x140001000 := by
  refine ⟨?_, ?_, ?_⟩
  · intro c name rva hlook hlt
    simp [PDBCache.get_function_address, hlook]
    exact hlt
  · intro c name hlook
    simp [PDBCache.get_function_address, hlook]
  · decide

/-- Witness for C1: the resolver lookup theorem applied to the synthetic
resolver, for the present name Foo and the absent name Bar. -/
theorem c1_witness :
    fooCache.get_function_address "Foo" = some (0x140000000 + 0x1000) ∧
    fooCache.get_function_address "Bar" = none :=
  ⟨c1_resolve_present_absent.1 fooCache "Foo" 0x1000 (by decide) (by decide),
   c1_resolve_present_absent.2.1 fooCache "Bar" (by decide)⟩

/-- Folding the symbol stream over an appended list first folds the left
part and, on success, folds the right part from the resulting map. -/
theorem buildSymbolMap_append (am : AddressMap)
    (l1 l2 : List (Except String SymbolData)) (m : SymbolMap) :
    buildSymbolMap am (l1 ++ l2) m =
      match buildSymbolMap am l1 m with
      | .error e => .error e
      | .ok m2 => buildSymbolMap am l2 m2 := by
  induction l1 generalizing m with
  | nil => rfl
  | cons r rs ih =>
      cases h : symbolStep am m r with
      | error e => simp [buildSymbolMap, h]
      | ok m2 => simp [buildSymbolMap, h, ih]

/-- Counterexample to C2: constructing the cache from a single public
function record whose offset cannot be converted (the address map returns
none everywhere) yields a table in which that record's name IS present,
bound to rva 0 via unwrap_or_default, whereas the claim says the name is
absent from the table. -/
theorem c2_counterexample :
    (PDBCache.new
        (.ok { records :=
                 [.ok (.publicSymbol
                        { function := true, name := "Bar", offset := 5 })],
               addressMap := fun _ => none })
        (.ok 0x140000000)).map (fun c => c.symbol_addresses "Bar")
      = .ok (some 0) := by rfl

/-- C2 (amended): a public function record whose section-relative offset
cannot be converted through the address map is not skipped: it is inserted
with the default rva 0, so the resulting table contains the record's name
bound to 0 (and the conversion failure is not an error). -/
theorem c2_unconvertible_inserted_as_zero
    (am : AddressMap) (recs : List (Except String SymbolData))
    (d : PublicSymbol) (m : SymbolMap)
    (hf : d.function = true) (hconv : am d.offset = none)
    (hbuild : buildSymbolMap am recs emptySymbolMap = .ok m) :
    buildSymbolMap am (recs ++ [.ok (.publicSymbol d)]) emptySymbolMap
        = .ok (insertSym m d.name 0) ∧
    insertSym m d.name 0 d.name = some 0 := by
  constructor
  · rw [buildSymbolMap_append, hbuild]
    simp [buildSymbolMap, symbolStep, hf, hconv]
  · simp [insertSym]

/-- Witness for C2 (amended): the empty stream extended with one
unconvertible public function record named Bar gives the table with Bar
bound to 0. -/
theorem c2_witness :
    buildSymbolMap (fun _ => none)
        ([] ++ [.ok (.publicSymbol
                      { function := true, name := "Bar", offset := 5 })])
        emptySymbolMap = .ok (insertSym emptySymbolMap "Bar" 0) ∧
    insertSym emptySymbolMap "Bar" 0 "Bar" = some 0 :=
  c2_unconvertible_inserted_as_zero (fun _ => none) []
    { function := true, name := "Bar", offset := 5 } emptySymbolMap
    rfl rfl rfl

/-- C8: when a further public function record with some name is parsed
after a stream that already built a table, the new record's address
silently overwrites whatever that table bound the name to: in the
resulting table the name maps to the rva of the last record parsed with
that name. -/
theorem c8_later_record_overwrites
    (am : AddressMap) (recs : List (Except String SymbolData))
    (d : PublicSymbol) (m : SymbolMap)
    (hf : d.function = true)
    (hbuild : buildSymbolMap am recs emptySymbolMap = .ok m) :
    (buildSymbolMap am (recs ++ [.ok (.publicSymbol d)]) emptySymbolMap).map
        (fun t => t d.name)
      = .ok (some ((am d.offset).getD 0)) := by
  rw [buildSymbolMap_append, hbuild]
  simp [buildSymbolMap, symbolStep, hf, insertSym, Except.map]

/-- Witness for C8: the stream with Foo at offset 1 (rva 0x1000) followed
by Foo at offset 2 (rva 0x2000) builds a table in which Foo maps to
0x2000, the later record's address. -/
theorem c8_witness :
    (buildSymbolMap (fun o => if o = 1 then some 0x1000 else some 0x2000)
        ([.ok (.publicSymbol { function := true, name := "Foo", offset := 1 })]
          ++ [.ok (.publicSymbol
                    { function := true, name := "Foo", offset := 2 })])
        emptySymbolMap).map (fun t => t "Foo")
      = .ok (some 0x2000) :=
  c8_later_record_overwrites
    (fun o => if o = 1 then some 0x1000 else some 0x2000)
    [.ok (.publicSymbol { function := true, name := "Foo", offset := 1 })]
    { function := true, name := "Foo", offset := 2 }
    (insertSym emptySymbolMap "Foo" 0x1000)
    rfl rfl

/-- C5: a descriptor whose mangled name is absent from the symbol table
resolves to none, the whole run aborts right there with an error carrying
the literal missing name, the descriptor is not skipped (no hook list
containing it can run to success), and no later descriptor or plugin is
processed (the tails hrest and mrest never contribute to the outcome). -/
theorem c5_missing_symbol_aborts
    (c : PDBCache) (h : RivetsHook) (hrest : List RivetsHook)
    (modName : String) (mrest : List (String × PluginLib))
    (habs : c.symbol_addresses h.mangled_name = none) :
    c.get_function_address h.mangled_name = none ∧
    runMods c ((modName, ⟨.ok (), some (h :: hrest)⟩) :: mrest)
      = ([.load modName, .unload modName],
         .error (missingAddressMsg h.mangled_name)) ∧
    (∃ p, missingAddressMsg h.mangled_name = p ++ h.mangled_name) ∧
    (∀ hooks : List RivetsHook, h ∈ hooks → ∀ plugin,
        (runHooks c plugin hooks).2 ≠ .ok ()) := by
  have hget : c.get_function_address h.mangled_name = none := by
    simp [PDBCache.get_function_address, habs]
  refine ⟨hget, by simp [runMods, runHooks, hget], ⟨_, rfl⟩, ?_⟩
  intro hooks hmem plugin
  induction hooks with
  | nil => cases hmem
  | cons h2 t ih =>
      rcases List.mem_cons.mp hmem with heq | hmem2
      · subst heq
        simp [runHooks, hget]
      · cases hres : c.get_function_address h2.mangled_name with
        | none => simp [runHooks, hres]
        | some address =>
            cases hcall : h2.hook address with
            | error e => simp [runHooks, hres, hcall]
            | ok u => simpa [runHooks, hres, hcall] using ih hmem2

/-- Witness for C5: the synthetic resolver has no entry for Bar, so a run
whose first mod hooks Bar aborts with the message carrying Bar. -/
theorem c5_witness :
    fooCache.get_function_address "Bar" = none ∧
    runMods fooCache [("A", ⟨.ok (), some [⟨"Bar", fun _ => .ok ()⟩]⟩)]
      = ([.load "A", .unload "A"], .error (missingAddressMsg "Bar")) ∧
    (∃ p, missingAddressMsg "Bar" = p ++ "Bar") ∧
    (∀ hooks : List RivetsHook,
        (⟨"Bar", fun _ => .ok ()⟩ : RivetsHook) ∈ hooks → ∀ plugin,
        (runHooks fooCache plugin hooks).2 ≠ .ok ()) :=
  c5_missing_symbol_aborts fooCache ⟨"Bar", fun _ => .ok ()⟩ [] "A" []
    (by decide)

/-- Counterexample to C4: a failing install callback aborts the run with
the descriptor's own error only; with install error boom for symbol Foo in
plugin A, the run's error string is exactly boom, which contains neither
the symbol name Foo nor the plugin name A, whereas the claim says the
resulting error names both. -/
theorem c4_counterexample :
    runMods fooCache
        [("A", ⟨.ok (), some [⟨"Foo", fun _ => .error "boom"⟩]⟩)]
      = ([.load "A", .install "A" "Foo" 0x140001000, .unload "A"],
         .error "boom") ∧
    ¬ "Foo".toList <:+: "boom".toList ∧
    ¬ "A".toList <:+: "boom".toList := by
  refine ⟨by rfl, by decide, by decide⟩

/-- C4 (amended): if a descriptor's install callback signals failure, the
injection run aborts immediately (the remaining descriptors hrest and
plugins mrest are never attempted) and the resulting error is the
descriptor's own error propagated unchanged; it does not additionally name
the target symbol or the plugin. -/
theorem c4_install_failure_aborts_with_bare_error
    (c : PDBCache) (h : RivetsHook) (address : Nat) (e : String)
    (hrest : List RivetsHook) (modName : String)
    (mrest : List (String × PluginLib))
    (hres : c.get_function_address h.mangled_name = some address)
    (hfail : h.hook address = .error e) :
    runMods c ((modName, ⟨.ok (), some (h :: hrest)⟩) :: mrest)
      = ([.load modName, .install modName h.mangled_name address,
          .unload modName], .error e) := by
  simp [runMods, runHooks, hres, hfail]

/-- Witness for C4 (amended): the synthetic resolver, plugin A, symbol Foo
resolved to 0x140001000, install callback failing with boom. -/
theorem c4_witness :
    runMods fooCache
        [("A", ⟨.ok (), some [⟨"Foo", fun _ => .error "boom"⟩]⟩)]
      = ([.load "A", .install "A" "Foo" 0x140001000, .unload "A"],
         .error "boom") :=
  c4_install_failure_aborts_with_bare_error fooCache
    ⟨"Foo", fun _ => .error "boom"⟩ 0x140001000 "boom" [] "A" []
    (by decide) rfl

/-- C7: a mod whose library lacks the rivets_finalize entry point makes the
run abort with the missing-entry-point message, which carries that mod's
name; a mod whose entry point returns zero descriptors is instead passed
over successfully (the run continues with the remaining mods, and on its
own it is success with no installs) - the two outcomes are distinguishable
(one is an error, the other is ok). -/
theorem c7_missing_entry_point_vs_empty
    (c : PDBCache) (modName : String) (mrest : List (String × PluginLib)) :
    runMods c ((modName, ⟨.ok (), none⟩) :: mrest)
      = ([.load modName, .unload modName],
         .error (missingEntryPointMsg modName)) ∧
    (∃ p q, missingEntryPointMsg modName = p ++ modName ++ q) ∧
    runMods c ((modName, ⟨.ok (), some []⟩) :: mrest)
      = (.load modName :: .unload modName :: (runMods c mrest).1,
         (runMods c mrest).2) ∧
    (runMods c [(modName, ⟨.ok (), some []⟩)]).2 = .ok () := by
  refine ⟨by simp [runMods], ⟨_, _, rfl⟩, by simp [runMods, runHooks], ?_⟩
  simp [runMods, runHooks]

/-- Witness for C7: the synthetic resolver with mod A, in both shapes. -/
theorem c7_witness :
    runMods fooCache [("A", ⟨.ok (), none⟩)]
      = ([.load "A", .unload "A"], .error (missingEntryPointMsg "A")) ∧
    (∃ p q, missingEntryPointMsg "A" = p ++ "A" ++ q) ∧
    runMods fooCache [("A", ⟨.ok (), some []⟩)]
      = (.load "A" :: .unload "A" :: (runMods fooCache []).1,
         (runMods fooCache []).2) ∧
    (runMods fooCache [("A", ⟨.ok (), some []⟩)]).2 = .ok () :=
  c7_missing_entry_point_vs_empty fooCache "A" []

/-- The instrumented inner loop computes the same result as the plain
sequential injection of the source's inner for-loop. -/
theorem runHooks_snd_eq_injectAll (c : PDBCache) (plugin : String)
    (hooks : List RivetsHook) :
    (runHooks c plugin hooks).2 = injectAll c hooks := by
  induction hooks with
  | nil => rfl
  | cons h t ih =>
      cases hres : c.get_function_address h.mangled_name with
      | none => simp [runHooks, injectAll, PDBCache.inject, hres]
      | some address =>
          cases hcall : h.hook address with
          | error e => simp [runHooks, injectAll, PDBCache.inject, hres, hcall]
          | ok u => simpa [runHooks, injectAll, PDBCache.inject, hres, hcall]
              using ih

/-- The install events of a hook list that runs to success are exactly the
hook names, in sequence order. -/
theorem runHooks_ok_installed (c : PDBCache) (plugin : String)
    (hooks : List RivetsHook)
    (hok : (runHooks c plugin hooks).2 = .ok ()) :
    installedSymbols (runHooks c plugin hooks).1
      = hooks.map RivetsHook.mangled_name := by
  induction hooks with
  | nil => rfl
  | cons h t ih =>
      cases hres : c.get_function_address h.mangled_name with
      | none => simp [runHooks, hres] at hok
      | some address =>
          cases hcall : h.hook address with
          | error e => simp [runHooks, hres, hcall] at hok
          | ok u =>
              have hok2 : (runHooks c plugin t).2 = .ok () := by
                simpa [runHooks, hres, hcall] using hok
              simpa [runHooks, hres, hcall, installedSymbols]
                using ih hok2

/-- Install events distribute over appended event lists. -/
theorem installedSymbols_append (a b : List RunEvent) :
    installedSymbols (a ++ b) = installedSymbols a ++ installedSymbols b := by
  simp [installedSymbols]

/-- A load event contributes no installed symbol. -/
theorem installedSymbols_load (p : String) (evts : List RunEvent) :
    installedSymbols (.load p :: evts) = installedSymbols evts := by
  simp [installedSymbols]

/-- An unload event contributes no installed symbol. -/
theorem installedSymbols_unload (p : String) (evts : List RunEvent) :
    installedSymbols (.unload p :: evts) = installedSymbols evts := by
  simp [installedSymbols]

/-- C9: in a run that succeeds, the install callbacks fire exactly in the
caller-supplied plugin order and, within each plugin, in that plugin's
descriptor-sequence order: the fired symbols are the concatenation, plugin
by plugin, of each plugin's hook-name sequence, never interleaved or
reversed. -/
theorem c9_install_order (c : PDBCache)
    (mods : List (String × PluginLib))
    (hok : (runMods c mods).2 = .ok ()) :
    installedSymbols (runMods c mods).1
      = List.flatten (mods.map
          (fun pl => (pl.2.finalize.getD []).map RivetsHook.mangled_name)) := by
  induction mods with
  | nil => rfl
  | cons p rest ih =>
      obtain ⟨modName, lib⟩ := p
      cases hopen : lib.openResult with
      | error e => simp [runMods, hopen] at hok
      | ok u =>
          cases hfin : lib.finalize with
          | none => simp [runMods, hopen, hfin] at hok
          | some hooks =>
              cases hr : (runHooks c modName hooks).2 with
              | error e => simp [runMods, hopen, hfin, hr] at hok
              | ok u2 =>
                  have hok2 : (runMods c rest).2 = .ok () := by
                    simpa [runMods, hopen, hfin, hr] using hok
                  have h1 := runHooks_ok_installed c modName hooks
                    (by cases u2; exact hr)
                  have hfst : (runMods c ((modName, lib) :: rest)).1
                      = .load modName :: ((runHooks c modName hooks).1
                          ++ ([.unload modName] ++ (runMods c rest).1)) := by
                    simp [runMods, hopen, hfin, hr]
                  rw [hfst, installedSymbols_load, installedSymbols_append,
                    List.singleton_append, installedSymbols_unload,
                    h1, ih hok2]
                  simp [hfin]

/-- Witness for C9: with load order A then B, A hooking Foo and B hooking
Bar, both resolving against the two-symbol resolver and installing
successfully, the callbacks fire as Foo then Bar. -/
theorem c9_witness :
    installedSymbols (runMods fooBarCache
        [("A", ⟨.ok (), some [⟨"Foo", fun _ => .ok ()⟩]⟩),
         ("B", ⟨.ok (), some [⟨"Bar", fun _ => .ok ()⟩]⟩)]).1
      = ["Foo", "Bar"] :=
  c9_install_order fooBarCache
    [("A", ⟨.ok (), some [⟨"Foo", fun _ => .ok ()⟩]⟩),
     ("B", ⟨.ok (), some [⟨"Bar", fun _ => .ok ()⟩]⟩)]
    (by rfl)

/-- C6 evaluation at the failing input: a run with one plugin A whose hook
Foo resolves and installs successfully ends with an unload event for A
after the install event - the libloading Library value is dropped when the
loop iteration's scope exits, releasing the handle, where the claim (and
the safety argument of the spec) requires the handle never be released. -/
theorem c6_library_unloaded_after_install :
    runMods fooCache [("A", ⟨.ok (), some [⟨"Foo", fun _ => .ok ()⟩]⟩)]
      = ([.load "A", .install "A" "Foo" 0x140001000, .unload "A"],
         .ok ()) := by rfl

/-- Counterexample to C3: the resolver is not constructed lazily on the
first resolution request - it is constructed eagerly at the top of main.
With a failing symbol-file open and an empty mod list, the run makes no
resolution request at all, yet it still returns the construction error
(under the claimed lazy construction it would never construct and would
succeed). -/
theorem c3_counterexample :
    mainModel (.error "The system cannot find the file specified. (os error 2)")
        (.ok 0x140000000) (.ok [])
      = .error "The system cannot find the file specified. (os error 2)" := by
  rfl

/-- C3 (amended): the resolver is constructed eagerly, exactly once per
injection run, at the start of main and before any plugin is touched; a
construction failure aborts the whole run immediately with that error, for
every mod list (so no plugin is ever processed after a failure).  The code
holds no process-wide cache: nothing is memoized between runs. -/
theorem c3_eager_construction_aborts_run
    (openResult : Except String PdbInput) (baseResult : Except String Nat)
    (modsLibs : Except String (List (String × PluginLib))) (e : String)
    (hfail : PDBCache.new openResult baseResult = .error e) :
    mainModel openResult baseResult modsLibs = .error e := by
  simp [mainModel, hfail]

/-- Witness for C3 (amended): a missing pdb file aborts a run that would
otherwise have processed mod A. -/
theorem c3_witness :
    mainModel (.error "pdb missing") (.ok 0x140000000)
        (.ok [("A", ⟨.ok (), some []⟩)])
      = .error "pdb missing" :=
  c3_eager_construction_aborts_run (.error "pdb missing") (.ok 0x140000000)
    (.ok [("A", ⟨.ok (), some []⟩)]) "pdb missing" rfl

/-- C10: the mod named rivets is always excluded by the extraction loop:
whenever extraction returns a list, no pair in it has name rivets. -/
theorem c10_rivets_excluded
    (writeData : String) (allActiveMods : String → Option ModRecord) :
    ∀ (order : List String) (res : List (String × String)),
      extract_all_mods_libs writeData allActiveMods order = .ok res →
      ∀ name path, (name, path) ∈ res → name ≠ "rivets" := by
  intro order
  induction order with
  | nil =>
      intro res hres name path hmem
      simp [extract_all_mods_libs] at hres
      subst hres
      cases hmem
  | cons modName rest ih =>
      intro res hres
      rw [extract_all_mods_libs] at hres
      by_cases hname : modName = "rivets"
      · rw [if_pos hname] at hres
        exact ih res hres
      · rw [if_neg hname] at hres
        split at hres
        · cases hres
        · split at hres
          · exact ih res hres
          · split at hres
            · exact ih res hres
            · cases hres
          · cases hres
          · split at hres
            · cases hres
            · rename_i restResult hrest2
              cases hres
              intro name path hmem
              rcases List.mem_cons.mp hmem with heq | hmem2
              · cases heq
                exact hname
              · exact ih restResult hrest2 name path hmem2

/-- Witness for C10: with load order rivets then alpha, both active and
both carrying a rivets library file, extraction returns only the alpha
pair, and the rivets pair is not in the result. -/
theorem c10_witness :
    extract_all_mods_libs "wd" c10mods ["rivets", "alpha"]
      = .ok [("alpha", "wd" ++ "/temp/rivets/" ++ "alpha"
               ++ DYNAMIC_LIBRARY_SUFFIX)] ∧
    ("rivets", "wd" ++ "/temp/rivets/" ++ "rivets" ++ DYNAMIC_LIBRARY_SUFFIX)
      ∉ [("alpha", "wd" ++ "/temp/rivets/" ++ "alpha"
           ++ DYNAMIC_LIBRARY_SUFFIX)] :=
  ⟨rfl,
   fun hmem =>
     c10_rivets_excluded "wd" c10mods ["rivets", "alpha"]
       [("alpha", "wd" ++ "/temp/rivets/" ++ "alpha"
          ++ DYNAMIC_LIBRARY_SUFFIX)] rfl
       "rivets"
       ("wd" ++ "/temp/rivets/" ++ "rivets" ++ DYNAMIC_LIBRARY_SUFFIX)
       hmem rfl⟩
